import Mathlib

/-!
Verification of the hands-chatbot backend (src/main.py, src/init_azure.py)
as a shallow embedding in Lean.

Timestamps are modelled as integral seconds and sleep durations
as integral milliseconds, so that every definition evaluates by kernel
reduction.  External
collaborators (the agent platform, the relational store, the JSON helpers
from util.py and the appointment helper) are modelled as environment
parameters; handlers and the background sweep return explicit effect
traces so that statements about what was inserted, invoked or removed can
be proved.
-/

set_option maxHeartbeats 1000000

/-- A run of the agent platform: src/init_azure.py compares `run.status`
against string literals, so the status is modelled as a string. -/
structure Run where
  id : String
  status : String
  last_error : String
deriving DecidableEq

/-- Value of the "message" field of a returned payload: either a plain
string or an extracted JSON object (rendered abstractly as a string). -/
inductive JVal
  | str (s : String)
  | obj (j : String)
deriving DecidableEq

/-- The dictionary returned by insert_chatbot_message and by the handlers:
keys role, message, thread_id, agent_id (src/main.py line 134). -/
structure Payload where
  role : String
  message : JVal
  thread_id : String
  agent_id : String
deriving DecidableEq

/-- One message of a thread as returned by get_message_list: a role and the
list of the values of its text messages. -/
structure ThreadMessage where
  role : String
  text_messages : List String
deriving DecidableEq

/-- A value inserted into the relational store: either a plain row dict
with keys role, thread_id, message, agent_id, or an extracted JSON object
(the summary branch of insert_chatbot_message). -/
inductive InsertVal
  | row (role : String) (thread_id : String) (message : JVal) (agent_id : String)
  | json (j : String)
deriving DecidableEq

/-- An insert event: target table (None is possible, the table_name
parameter defaults to None in the source) and the inserted value. -/
abbrev InsertEvent := Option String × InsertVal

/- ===== Idle sweep (src/main.py, save_finished_threads, lines 54 to 75) ===== -/

/-- ONGOING_THREADS: a Python dict from thread id to the time of the last
message, modelled as an association list in insertion order with distinct
keys. -/
abbrev OngoingThreads := List (String × Int)

/-- src/main.py line 52: seconds a user has to respond before archival. -/
def time_limit_user_message : Int := 600

/-- The for-loop of save_finished_threads (src/main.py lines 61 to 69),
embedded faithfully: the loop breaks when threads_to_check is zero, but no
iteration ever decrements threads_to_check (the decrement of the source is
after the loop, line 71).  `timeAt i` is the value time.time() returns at
iteration `i`.  Returns the counter at loop exit and threads_to_remove;
make_summary is invoked once per id exactly as it is appended, so the
second component is also the list of make_summary invocations in order. -/
def sweep_loop (timeAt : Nat → Int) : Nat → Nat → OngoingThreads → List String → Nat × List String
  | _, threads_to_check, [], threads_to_remove => (threads_to_check, threads_to_remove)
  | i, threads_to_check, (thread_id, last_message_time) :: rest, threads_to_remove =>
    if threads_to_check = 0 then (threads_to_check, threads_to_remove)
    else
      sweep_loop timeAt (i + 1) threads_to_check rest
        (if timeAt i - last_message_time > time_limit_user_message
         then threads_to_remove ++ [thread_id]
         else threads_to_remove)

/-- Reference full scan with no counter at all: the ids of all entries of
the map whose idle time at their inspection instant exceeds the limit.
Used to state that the capped loop in fact inspects every entry. -/
def expired_full (timeAt : Nat → Int) : Nat → OngoingThreads → List String
  | _, [] => []
  | i, (thread_id, last_message_time) :: rest =>
    if timeAt i - last_message_time > time_limit_user_message
    then thread_id :: expired_full timeAt (i + 1) rest
    else expired_full timeAt (i + 1) rest

/-- One cycle of save_finished_threads (src/main.py lines 55 to 75): run
the loop with threads_to_check = 4, then pop every collected id from the
map (the post-loop decrement of threads_to_check is dead code and binds
nothing).  Returns the updated map and the list of make_summary
invocations. -/
def save_finished_threads_cycle (timeAt : Nat → Int) (ongoing : OngoingThreads) :
    OngoingThreads × List String :=
  let r := sweep_loop timeAt 0 4 ongoing []
  (ongoing.filter (fun p => !decide (p.1 ∈ r.2)), r.2)

/- ===== Agent run wait loop (src/init_azure.py, run_agent, lines 46 to 73) ===== -/

/-- Events of one run_agent call: a status poll of the latest prior run
(runs.get), a sleep (asyncio.sleep, its duration recorded in
milliseconds), and the creation of the new run (runs.create_and_process). -/
inductive AgentEvent
  | poll (status : String)
  | sleep (ms : Nat)
  | create
deriving DecidableEq

/-- src/init_azure.py line 63: the non-terminal run statuses the loop
keeps waiting on. -/
def nonterminal (status : String) : Bool :=
  status = "in_progress" || status = "queued"

/-- The while-loop of run_agent (src/init_azure.py lines 58 to 66): poll
the latest prior run; while its status is in_progress or queued, sleep
0.5 seconds (500 ms) and poll again.  `statusAt k` is the status the
platform reports at the k-th poll of that run.  The source loop has no
bound, so it is embedded with explicit fuel: `none` means the loop has
not exited within `fuel` polls. -/
def wait_loop (statusAt : Nat → String) : Nat → Nat → Option (List AgentEvent)
  | 0, _ => none
  | fuel + 1, k =>
    if nonterminal (statusAt k)
    then (wait_loop statusAt fuel (k + 1)).map
      (fun evs => AgentEvent.poll (statusAt k) :: AgentEvent.sleep 500 :: evs)
    else some [AgentEvent.poll (statusAt k)]

/-- Environment of one run_agent call: the run ids runs.list returns (the
loop polls the first listed run), the statuses the platform reports for
that run at each poll, and the run that create_and_process returns. -/
structure RunEnv where
  prior_run_ids : List String
  statusAt : Nat → String
  new_run : Run

/-- run_agent (src/init_azure.py lines 46 to 73): if any prior run is
listed, wait until the first listed run leaves the non-terminal statuses,
then create and process a new run and return it.  Returns the event trace
and the new run, or `none` when the wait loop does not exit within `fuel`
polls. -/
def run_agent (env : RunEnv) (fuel : Nat) : Option (List AgentEvent × Run) :=
  if env.prior_run_ids.isEmpty then some ([AgentEvent.create], env.new_run)
  else (wait_loop env.statusAt fuel 0).map
    (fun evs => (evs ++ [AgentEvent.create], env.new_run))

/-- Reference trace of a wait loop whose poll at index `k + steps` is the
first terminal one: a poll and a 500 ms sleep for each non-terminal
status, then the final poll. -/
def wait_trace (statusAt : Nat → String) : Nat → Nat → List AgentEvent
  | 0, k => [AgentEvent.poll (statusAt k)]
  | steps + 1, k =>
    AgentEvent.poll (statusAt k) :: AgentEvent.sleep 500 :: wait_trace statusAt steps (k + 1)

/-- Example environment: one prior run that is queued for two polls and
completed at the third. -/
def run_env_ex : RunEnv where
  prior_run_ids := ["run0"]
  statusAt := fun k => if k < 2 then "queued" else "completed"
  new_run := { id := "r1", status := "completed", last_error := "" }

/-- The trace run_agent produces in `run_env_ex`. -/
def run_evs_ex : List AgentEvent :=
  [AgentEvent.poll "queued", AgentEvent.sleep 500,
   AgentEvent.poll "queued", AgentEvent.sleep 500,
   AgentEvent.poll "completed", AgentEvent.create]

/- ===== insert_chatbot_message (src/main.py, lines 78 to 136) ===== -/

/-- Environment of the database helpers: the util.py helpers (a
ValueError raised by extract_json is modelled as `none`, a successful
extraction as `some` of the rendered object) and the id of the data
agent. -/
structure DbEnv where
  extract_json : String → Option String
  remove_source : String → String
  agent_data_id : String

/-- The for-loop of insert_chatbot_message over reversed(messages)
(src/main.py lines 102 to 134), acting on the first message whose role is
assistant and whose list of text messages is non-empty: take the value of
its last text message, strip sources, try JSON extraction; on success
insert the extracted object when the chatbot type is summary and return
nothing (the bare return of line 118), and otherwise insert nothing and
return the payload of line 134 carrying the extracted object; on
ValueError insert the plain assistant row into table_name and return the
payload carrying the plain text.  When no message qualifies (line 136)
return the No-response payload with no insert. -/
def insert_chatbot_message_loop (env : DbEnv) (thread_id : String)
    (table_name : Option String) (chatbot_type : String) :
    List ThreadMessage → List InsertEvent × Option Payload
  | [] =>
    ([], some { role := "assistant", message := JVal.str "No response",
                thread_id := thread_id, agent_id := env.agent_data_id })
  | message :: rest =>
    if message.role = "assistant" ∧ message.text_messages ≠ [] then
      let message_to_insert := env.remove_source (message.text_messages.getLastD "")
      match env.extract_json message_to_insert with
      | some j =>
        if chatbot_type = "summary" then
          ([(table_name, InsertVal.json j)], none)
        else
          ([], some { role := "assistant", message := JVal.obj j,
                      thread_id := thread_id, agent_id := env.agent_data_id })
      | none =>
        ([(table_name,
           InsertVal.row "assistant" thread_id (JVal.str message_to_insert) env.agent_data_id)],
         some { role := "assistant", message := JVal.str message_to_insert,
                thread_id := thread_id, agent_id := env.agent_data_id })
    else insert_chatbot_message_loop env thread_id table_name chatbot_type rest

/-- insert_chatbot_message (src/main.py lines 78 to 136).  `messages` is
what get_message_list returns for the thread, in ascending order.  With
msg set, insert its message as an assistant row into the chatbot_data
table and return nothing (lines 92 to 98); otherwise run the loop over
the reversed message list.  Returns the insert events and the returned
dict (`none` is the Python None). -/
def insert_chatbot_message (env : DbEnv) (messages : List ThreadMessage)
    (thread_id : String) (table_name : Option String) (chatbot_type : String)
    (msg : Option Payload) : List InsertEvent × Option Payload :=
  match msg with
  | some m =>
    ([(some "chatbot_data",
       InsertVal.row "assistant" thread_id m.message env.agent_data_id)], none)
  | none => insert_chatbot_message_loop env thread_id table_name chatbot_type messages.reverse

/- ===== HTTP handlers (src/main.py) ===== -/

/-- Side effects a handler performs, in order: thread creation, a message
posted to the agent platform, a database insert, a run_agent invocation,
and an update of the ONGOING_THREADS entry of a thread. -/
inductive Effect
  | create_thread (thread_id : String)
  | make_message (thread_id : String) (role : String) (content : String)
  | db_insert (table : Option String) (v : InsertVal)
  | run_agent_call (thread_id : String) (agent_id : String)
  | set_ongoing (thread_id : String) (t : Int)
deriving DecidableEq

/-- A handler response as serialized to the HTTP caller:
`thread_id_resp` is the dict with the single key thread_id,
`message_payload` is the two-key dict with role and message of the
run-failure branches, `payload_resp` is a full payload dict, `none_resp`
is the Python None (a JSON null), and `type_error_resp` marks the path on
which the source would raise a TypeError by subscripting None. -/
inductive HResponse
  | thread_id_resp (thread_id : String)
  | message_payload (role : String) (message : String)
  | payload_resp (p : Payload)
  | none_resp
  | type_error_resp
deriving DecidableEq

/-- Environment of one POST /start request: the id of the thread
create_thread returns, the date triple of get_today_date, the value of
time.time(), the run that run_agent returns for this thread (the wait
loop inside run_agent is modelled separately above; here the handler
receives its completed result), the message list of the thread at
extraction time, and the database helpers. -/
structure StartEnv where
  new_thread_id : String
  today : String × String × String
  now : Int
  run_result : Run
  thread_messages : List ThreadMessage
  db : DbEnv

/-- The date-context system message of src/main.py line 162. -/
def date_context_message (today : String × String × String) : String :=
  "System message: Vandaag is " ++ today.1 ++ ", " ++ today.2.1 ++ ", " ++
    today.2.2 ++ ". Gebruik deze datum altijd als referentie"

/-- give_thread_id, the POST /start handler (src/main.py lines 150 to
190): create a thread and post the date-context message; with a null body
message, call run_agent and return the dict with the thread id (lines 166
to 168); otherwise insert the user row, record the thread in
ONGOING_THREADS, post the user message, call run_agent, and return the
failure payload when the run failed, else the result of
insert_chatbot_message.  Returns the effect trace and the response. -/
def give_thread_id (env : StartEnv) (user_input : Option String) :
    List Effect × HResponse :=
  let thread_id := env.new_thread_id
  let pre := [Effect.create_thread thread_id,
              Effect.make_message thread_id "user" (date_context_message env.today)]
  match user_input with
  | none =>
    (pre ++ [Effect.run_agent_call thread_id env.db.agent_data_id],
     HResponse.thread_id_resp thread_id)
  | some input =>
    let effs := pre ++
      [Effect.db_insert (some "chatbot_data")
         (InsertVal.row "user" thread_id (JVal.str input) env.db.agent_data_id),
       Effect.set_ongoing thread_id env.now,
       Effect.make_message thread_id "user" input,
       Effect.run_agent_call thread_id env.db.agent_data_id]
    if env.run_result.status = "failed" then
      (effs,
       HResponse.message_payload "assistant" ("Run failed: " ++ env.run_result.last_error))
    else
      let r := insert_chatbot_message env.db env.thread_messages thread_id
        (some "chatbot_data") "data" none
      (effs ++ r.1.map (fun e => Effect.db_insert e.1 e.2),
       match r.2 with
       | some p => HResponse.payload_resp p
       | none => HResponse.none_resp)

/-- Environment of one POST /chat request: the value of time.time(), the
run run_agent returns, the message list of the thread at extraction time,
the appointment helper of cal_com_methods.py as an opaque function on
payloads, and the database helpers. -/
structure ChatEnv where
  now : Int
  run_result : Run
  thread_messages : List ThreadMessage
  try_appointment : Payload → Payload
  db : DbEnv

/-- chat, the POST /chat handler (src/main.py lines 192 to 218): record
the thread in ONGOING_THREADS, post the user message, insert the user
row, call run_agent; on a failed run return the failure payload;
otherwise extract and insert the assistant message, hand its payload to
try_to_make_an_appointment, insert the helper message as well when it
differs from the assistant message, and return the helper result. -/
def chat (env : ChatEnv) (user_input : String) (user_thread_id : String) :
    List Effect × HResponse :=
  let effs := [Effect.set_ongoing user_thread_id env.now,
               Effect.make_message user_thread_id "user" user_input,
               Effect.db_insert (some "chatbot_data")
                 (InsertVal.row "user" user_thread_id (JVal.str user_input) env.db.agent_data_id),
               Effect.run_agent_call user_thread_id env.db.agent_data_id]
  if env.run_result.status = "failed" then
    (effs,
     HResponse.message_payload "assistant" ("Run failed: " ++ env.run_result.last_error))
  else
    let r := insert_chatbot_message env.db env.thread_messages user_thread_id
      (some "chatbot_data") "data" none
    let effs2 := effs ++ r.1.map (fun e => Effect.db_insert e.1 e.2)
    match r.2 with
    | some chatbot_message =>
      let msg := env.try_appointment chatbot_message
      if msg.message ≠ chatbot_message.message then
        let r2 := insert_chatbot_message env.db env.thread_messages user_thread_id
          none "data" (some msg)
        (effs2 ++ r2.1.map (fun e => Effect.db_insert e.1 e.2), HResponse.payload_resp msg)
      else (effs2, HResponse.payload_resp msg)
    | none => (effs2, HResponse.type_error_resp)

/- ===== Summaries (src/main.py, end_conversation and make_summary) ===== -/

/-- Environment of make_summary: `chatbot_rows thread_id` is the select
of role and message from the chatbot_data table for that thread id and
the data agent (lines 233 to 239), plus the summary thread, the summary
agent, the message list of the summary thread at extraction time, and the
database helpers. -/
structure SummaryEnv where
  chatbot_rows : String → List (String × String)
  summary_thread_id : String
  agent_summary_id : String
  summary_thread_messages : List ThreadMessage
  db : DbEnv

/-- make_summary (src/main.py lines 231 to 252): join the selected rows
into a transcript of lines "role: message"; when the transcript is
non-empty, post it to the summary thread, invoke the summary agent
through run_agent, and store the extracted summary through
insert_chatbot_message on the hands_summary_data table; an empty
transcript does nothing (line 244). -/
def make_summary (env : SummaryEnv) (thread_id : String) : List Effect :=
  let message_list := env.chatbot_rows thread_id
  let conversation := String.join (message_list.map (fun m => m.1 ++ ": " ++ m.2 ++ "\n"))
  if conversation ≠ "" then
    [Effect.make_message env.summary_thread_id "user" conversation,
     Effect.run_agent_call env.summary_thread_id env.agent_summary_id]
    ++ (insert_chatbot_message env.db env.summary_thread_messages env.summary_thread_id
          (some "hands_summary_data") "summary" none).1.map
        (fun e => Effect.db_insert e.1 e.2)
  else []

/-- end_conversation, the POST /end_conversation handler (src/main.py
lines 220 to 227): pop the thread id from ONGOING_THREADS with a default,
so a missing id is not an error, and invoke make_summary on it.  Returns
the updated map and the summary effects. -/
def end_conversation (env : SummaryEnv) (ongoing : OngoingThreads)
    (thread_id : String) : OngoingThreads × List Effect :=
  (ongoing.filter (fun p => !decide (p.1 = thread_id)), make_summary env thread_id)

/- ===== Concrete example environments for witnesses ===== -/

/-- Example database helpers: extraction always raises ValueError. -/
def db_env_ex : DbEnv where
  extract_json := fun _ => none
  remove_source := fun s => s
  agent_data_id := "agent1"

/-- Example environment of a POST /start request whose run completes. -/
def start_env_ex : StartEnv where
  new_thread_id := "t1"
  today := ("maandag", "6", "oktober")
  now := 1000
  run_result := { id := "r1", status := "completed", last_error := "" }
  thread_messages := []
  db := db_env_ex

/-- Example environment of a POST /start request whose run fails. -/
def start_env_failed : StartEnv where
  new_thread_id := "t1"
  today := ("maandag", "6", "oktober")
  now := 1000
  run_result := { id := "r1", status := "failed", last_error := "boom" }
  thread_messages := []
  db := db_env_ex

/-- Example environment of a POST /chat request whose run fails. -/
def chat_env_failed : ChatEnv where
  now := 1000
  run_result := { id := "r2", status := "failed", last_error := "kapot" }
  thread_messages := []
  try_appointment := fun p => p
  db := db_env_ex

/-- Example summary environment: the thread t9 has one persisted row,
every other thread has none. -/
def summary_env_ex : SummaryEnv where
  chatbot_rows := fun thread_id => if thread_id = "t9" then [("user", "hoi")] else []
  summary_thread_id := "st"
  agent_summary_id := "agentS"
  summary_thread_messages := []
  db := db_env_ex

/- ===== Helper lemmas for the sweep ===== -/

theorem sweep_loop_of_counter_ne_zero (timeAt : Nat → Int) :
    ∀ (l : OngoingThreads) (i c : Nat) (acc : List String), c ≠ 0 →
      sweep_loop timeAt i c l acc = (c, acc ++ expired_full timeAt i l) := by
  intro l
  induction l with
  | nil => intro i c acc hc; simp [sweep_loop, expired_full]
  | cons p rest ih =>
    intro i c acc hc
    obtain ⟨tid, last⟩ := p
    rw [sweep_loop, expired_full]
    rw [if_neg hc]
    by_cases h : timeAt i - last > time_limit_user_message
    · rw [if_pos h, if_pos h, ih (i + 1) c _ hc]
      simp
    · rw [if_neg h, if_neg h, ih (i + 1) c _ hc]

theorem mem_expired_full_const (now : Int) (x : String) :
    ∀ (l : OngoingThreads) (i : Nat),
      x ∈ expired_full (fun _ => now) i l ↔
        ∃ last, (x, last) ∈ l ∧ now - last > time_limit_user_message := by
  intro l
  induction l with
  | nil => intro i; simp [expired_full]
  | cons p rest ih =>
    intro i
    obtain ⟨tid, last⟩ := p
    rw [expired_full]
    by_cases h : now - last > time_limit_user_message
    · rw [if_pos h]
      constructor
      · intro hx
        rcases List.mem_cons.mp hx with hx | hx
        · subst hx
          exact ⟨last, List.mem_cons_self _ _, h⟩
        · obtain ⟨l2, hl2, hgt⟩ := (ih (i + 1)).mp hx
          exact ⟨l2, List.mem_cons_of_mem _ hl2, hgt⟩
      · intro ⟨l2, hl2, hgt⟩
        rcases List.mem_cons.mp hl2 with heq | hmem
        · rw [Prod.mk.injEq] at heq
          obtain ⟨rfl, rfl⟩ := heq
          exact List.mem_cons_self _ _
        · exact List.mem_cons_of_mem _ ((ih (i + 1)).mpr ⟨l2, hmem, hgt⟩)
    · rw [if_neg h]
      constructor
      · intro hx
        obtain ⟨l2, hl2, hgt⟩ := (ih (i + 1)).mp hx
        exact ⟨l2, List.mem_cons_of_mem _ hl2, hgt⟩
      · intro ⟨l2, hl2, hgt⟩
        rcases List.mem_cons.mp hl2 with heq | hmem
        · cases heq; exact absurd hgt h
        · exact (ih (i + 1)).mpr ⟨l2, hmem, hgt⟩

theorem keys_inj {l : OngoingThreads} (hnd : (l.map Prod.fst).Nodup)
    {a : String} {b c : Int} (hb : (a, b) ∈ l) (hc : (a, c) ∈ l) : b = c := by
  induction l with
  | nil => cases hb
  | cons p rest ih =>
    rw [List.map_cons, List.nodup_cons] at hnd
    rcases List.mem_cons.mp hb with hb1 | hb2 <;> rcases List.mem_cons.mp hc with hc1 | hc2
    · exact congrArg Prod.snd (hb1.trans hc1.symm)
    · exfalso
      apply hnd.1
      rw [← hb1]
      exact List.mem_map.mpr ⟨(a, c), hc2, rfl⟩
    · exfalso
      apply hnd.1
      rw [← hc1]
      exact List.mem_map.mpr ⟨(a, b), hb2, rfl⟩
    · exact ih hnd.2 hb2 hc2

theorem count_expired_full_const (now : Int) :
    ∀ (l : OngoingThreads) (i : Nat), (l.map Prod.fst).Nodup →
      ∀ tid last, (tid, last) ∈ l → now - last > time_limit_user_message →
        (expired_full (fun _ => now) i l).count tid = 1 := by
  intro l
  induction l with
  | nil => intro i _ tid last h; cases h
  | cons p rest ih =>
    intro i hnd tid last hmem hgt
    obtain ⟨a, b⟩ := p
    rw [List.map_cons, List.nodup_cons] at hnd
    rw [expired_full]
    rcases List.mem_cons.mp hmem with heq | hmem2
    · rw [Prod.mk.injEq] at heq
      obtain ⟨rfl, rfl⟩ := heq
      rw [if_pos hgt, List.count_cons_self]
      have hnot : tid ∉ expired_full (fun _ => now) (i + 1) rest := by
        intro hx
        obtain ⟨l2, hl2, _⟩ := (mem_expired_full_const now tid rest (i + 1)).mp hx
        exact hnd.1 (List.mem_map.mpr ⟨(tid, l2), hl2, rfl⟩)
      rw [List.count_eq_zero.mpr hnot]
    · have hne : a ≠ tid := by
        intro heq
        exact hnd.1 (heq ▸ List.mem_map.mpr ⟨(tid, last), hmem2, rfl⟩)
      by_cases h : now - b > time_limit_user_message
      · rw [if_pos h, List.count_cons_of_ne (fun h2 => hne h2.symm)]
        exact ih (i + 1) hnd.2 tid last hmem2 hgt
      · rw [if_neg h]
        exact ih (i + 1) hnd.2 tid last hmem2 hgt

/- ===== Claim theorems for the sweep ===== -/

/-- C1: after one cycle of the idle sweep, every thread of the
ongoing-threads map whose last-activity timestamp is older than the
600-second timeout is removed from the map and make_summary is invoked on
it exactly once, and every thread whose last activity is within the
timeout remains in the map unchanged. -/
theorem claim_C1 (now : Int) (ongoing : OngoingThreads)
    (hkeys : (ongoing.map Prod.fst).Nodup) :
    (∀ tid last, (tid, last) ∈ ongoing → now - last > time_limit_user_message →
      (save_finished_threads_cycle (fun _ => now) ongoing).2.count tid = 1 ∧
      tid ∉ (save_finished_threads_cycle (fun _ => now) ongoing).1.map Prod.fst) ∧
    (∀ tid last, (tid, last) ∈ ongoing → ¬ (now - last > time_limit_user_message) →
      (tid, last) ∈ (save_finished_threads_cycle (fun _ => now) ongoing).1) := by
  have hml : (sweep_loop (fun _ => now) 0 4 ongoing []) =
      (4, expired_full (fun _ => now) 0 ongoing) := by
    rw [sweep_loop_of_counter_ne_zero (fun _ => now) ongoing 0 4 [] (by decide)]
    simp
  constructor
  · intro tid last hmem hgt
    constructor
    · show (save_finished_threads_cycle (fun _ => now) ongoing).2.count tid = 1
      unfold save_finished_threads_cycle
      rw [hml]
      exact count_expired_full_const now ongoing 0 hkeys tid last hmem hgt
    · unfold save_finished_threads_cycle
      rw [hml]
      intro hx
      rw [List.mem_map] at hx
      obtain ⟨p, hp, hfst⟩ := hx
      rw [List.mem_filter] at hp
      have : p.1 ∈ expired_full (fun _ => now) 0 ongoing := by
        rw [hfst]
        exact (mem_expired_full_const now tid ongoing 0).mpr ⟨last, hmem, hgt⟩
      simp only [Bool.not_eq_eq_eq_not, Bool.not_true, decide_eq_false_iff_not] at hp
      exact hp.2 this
  · intro tid last hmem hle
    unfold save_finished_threads_cycle
    rw [hml]
    rw [List.mem_filter]
    refine ⟨hmem, ?_⟩
    simp only [Bool.not_eq_eq_eq_not, Bool.not_true, decide_eq_false_iff_not]
    intro hx
    obtain ⟨l2, hl2, hgt⟩ := (mem_expired_full_const now tid ongoing 0).mp hx
    exact hle ((keys_inj hkeys hmem hl2) ▸ hgt)

/-- Witness for C1 at a concrete map: with the clock at 1000, the entry
("a", 100) is expired (idle 900 > 600) and is summarized once and removed,
while ("b", 900) is within the timeout (idle 100) and stays. -/
theorem claim_C1_witness :
    ((save_finished_threads_cycle (fun _ => (1000 : Int)) [("a", 100), ("b", 900)]).2.count "a" = 1 ∧
      "a" ∉ (save_finished_threads_cycle (fun _ => (1000 : Int)) [("a", 100), ("b", 900)]).1.map Prod.fst) ∧
    ("b", (900 : Int)) ∈ (save_finished_threads_cycle (fun _ => (1000 : Int)) [("a", 100), ("b", 900)]).1 :=
  ⟨(claim_C1 1000 [("a", 100), ("b", 900)] (by decide)).1 "a" 100 (by decide) (by decide),
   (claim_C1 1000 [("a", 100), ("b", 900)] (by decide)).2 "b" 900 (by decide) (by decide)⟩

/-- C3: the per-cycle cap of 4 never limits the number of inspected
entries.  The loop exits with the counter still at its initial value 4 (it
is decremented only after the loop), so the break on a zero counter never
fires, and for every state of the map the collected removal list equals
the uncapped full scan over every entry. -/
theorem claim_C3 (timeAt : Nat → Int) (ongoing : OngoingThreads) :
    sweep_loop timeAt 0 4 ongoing [] = (4, expired_full timeAt 0 ongoing) ∧
    (save_finished_threads_cycle timeAt ongoing).2 = expired_full timeAt 0 ongoing := by
  have h : sweep_loop timeAt 0 4 ongoing [] = (4, expired_full timeAt 0 ongoing) := by
    rw [sweep_loop_of_counter_ne_zero timeAt ongoing 0 4 [] (by decide)]
    simp
  exact ⟨h, by unfold save_finished_threads_cycle; rw [h]⟩

/- ===== Helper lemmas for the wait loop ===== -/

theorem wait_loop_some_trace (statusAt : Nat → String) :
    ∀ (fuel k : Nat) (evs : List AgentEvent), wait_loop statusAt fuel k = some evs →
      ∃ steps, evs = wait_trace statusAt steps k ∧
        (∀ i, i < steps → nonterminal (statusAt (k + i)) = true) ∧
        nonterminal (statusAt (k + steps)) = false := by
  intro fuel
  induction fuel with
  | zero => intro k evs h; cases h
  | succ fuel ih =>
    intro k evs h
    rw [wait_loop] at h
    split at h
    · rename_i hn
      cases hr : wait_loop statusAt fuel (k + 1) with
      | none => rw [hr] at h; cases h
      | some evs2 =>
        rw [hr] at h
        simp only [Option.map_some'] at h
        injection h with h
        obtain ⟨steps, he, hlt, hterm⟩ := ih (k + 1) evs2 hr
        refine ⟨steps + 1, ?_, ?_, ?_⟩
        · rw [← h, he, wait_trace]
        · intro i hi
          cases i with
          | zero => simpa using hn
          | succ j =>
            have hj := hlt j (Nat.lt_of_succ_lt_succ hi)
            rw [Nat.add_succ, ← Nat.succ_add]
            exact hj
        · rw [Nat.add_succ, ← Nat.succ_add]
          exact hterm
    · rename_i hn
      injection h with h
      refine ⟨0, ?_, ?_, ?_⟩
      · rw [← h, wait_trace]
      · intro i hi; cases hi
      · rw [Nat.add_zero]
        simpa using hn

theorem wait_loop_terminates (statusAt : Nat → String) :
    ∀ (fuel k : Nat),
      (∃ m, k ≤ m ∧ m < k + fuel ∧ nonterminal (statusAt m) = false) →
      (wait_loop statusAt fuel k).isSome := by
  intro fuel
  induction fuel with
  | zero =>
    intro k ⟨m, h1, h2, _⟩
    omega
  | succ fuel ih =>
    intro k ⟨m, h1, h2, hterm⟩
    rw [wait_loop]
    cases hn : nonterminal (statusAt k)
    · simp [hn]
    · have hm : k + 1 ≤ m := by
        rcases Nat.eq_or_lt_of_le h1 with heq | h
        · rw [← heq] at hterm; rw [hterm] at hn; cases hn
        · exact h
      have hrec := ih (k + 1) ⟨m, hm, by omega, hterm⟩
      simp only [hn, if_true]
      rw [Option.isSome_map']
      exact hrec

theorem create_not_mem_wait_trace (statusAt : Nat → String) :
    ∀ (steps k : Nat), AgentEvent.create ∉ wait_trace statusAt steps k := by
  intro steps
  induction steps with
  | zero => intro k h; simp [wait_trace] at h
  | succ steps ih =>
    intro k h
    rw [wait_trace] at h
    rcases List.mem_cons.mp h with h1 | h1
    · cases h1
    · rcases List.mem_cons.mp h1 with h2 | h2
      · cases h2
      · exact ih (k + 1) h2

theorem sleep_mem_wait_trace (statusAt : Nat → String) :
    ∀ (steps k ms : Nat), AgentEvent.sleep ms ∈ wait_trace statusAt steps k → ms = 500 := by
  intro steps
  induction steps with
  | zero => intro k ms h; simp [wait_trace] at h
  | succ steps ih =>
    intro k ms h
    rw [wait_trace] at h
    rcases List.mem_cons.mp h with h1 | h1
    · cases h1
    · rcases List.mem_cons.mp h1 with h2 | h2
      · cases h2; rfl
      · exact ih (k + 1) ms h2

theorem prior_not_isEmpty {env : RunEnv} (h : env.prior_run_ids ≠ []) :
    env.prior_run_ids.isEmpty = false := by
  cases hpe : env.prior_run_ids with
  | nil => exact absurd hpe h
  | cons a l => rfl

/- ===== Claim theorems for the wait loop ===== -/

/-- C2: whenever run_agent returns and a prior run was listed, its trace
is a sequence of polls of that prior run, separated by fixed sleeps, in
which every poll but the last saw a status in the non-terminal set
(queued or in_progress), the last poll saw a status outside that set, and
the creation of the new run is the single final event, occurring only
after that terminal poll. -/
theorem claim_C2 (env : RunEnv) (fuel : Nat) (evs : List AgentEvent) (run : Run)
    (hprior : env.prior_run_ids ≠ [])
    (hrun : run_agent env fuel = some (evs, run)) :
    ∃ steps,
      evs = wait_trace env.statusAt steps 0 ++ [AgentEvent.create] ∧
      (∀ i, i < steps → nonterminal (env.statusAt i) = true) ∧
      nonterminal (env.statusAt steps) = false ∧
      AgentEvent.create ∉ wait_trace env.statusAt steps 0 := by
  rw [run_agent, prior_not_isEmpty hprior] at hrun
  simp only [Bool.false_eq_true, if_false] at hrun
  cases hw : wait_loop env.statusAt fuel 0 with
  | none => rw [hw] at hrun; cases hrun
  | some evs2 =>
    rw [hw] at hrun
    simp only [Option.map_some'] at hrun
    have hevs : evs = evs2 ++ [AgentEvent.create] := by
      have := congrArg Prod.fst (Option.some.inj hrun)
      exact this.symm
    obtain ⟨steps, he, hlt, hterm⟩ := wait_loop_some_trace env.statusAt fuel 0 evs2 hw
    refine ⟨steps, ?_, ?_, ?_, ?_⟩
    · rw [hevs, he]
    · intro i hi
      have := hlt i hi
      rwa [Nat.zero_add] at this
    · have := hterm
      rwa [Nat.zero_add] at this
    · exact create_not_mem_wait_trace env.statusAt steps 0

/-- Witness for C2 on a concrete environment: one prior run, queued at the
first two polls and completed at the third. -/
theorem claim_C2_witness :
    ∃ steps,
      run_evs_ex = wait_trace run_env_ex.statusAt steps 0 ++ [AgentEvent.create] ∧
      (∀ i, i < steps → nonterminal (run_env_ex.statusAt i) = true) ∧
      nonterminal (run_env_ex.statusAt steps) = false ∧
      AgentEvent.create ∉ wait_trace run_env_ex.statusAt steps 0 :=
  claim_C2 run_env_ex 3 run_evs_ex { id := "r1", status := "completed", last_error := "" }
    (by decide) (by decide)

/-- C9: the polling loop of run_agent has no timeout and no backoff.
Given a listed prior run, run_agent returns for some fuel bound if and
only if some poll of the prior run reports a status outside the
non-terminal set (so a run that stays queued or in_progress forever
stalls the caller for every bound), and every sleep of a returned trace
is the same fixed 500 ms interval. -/
theorem claim_C9 (env : RunEnv) (hprior : env.prior_run_ids ≠ []) :
    ((∃ n, nonterminal (env.statusAt n) = false) ↔
      ∃ fuel r, run_agent env fuel = some r) ∧
    (∀ fuel evs run, run_agent env fuel = some (evs, run) →
      ∀ ms, AgentEvent.sleep ms ∈ evs → ms = 500) := by
  have hie := prior_not_isEmpty hprior
  constructor
  · constructor
    · intro ⟨n, hn⟩
      have hs := wait_loop_terminates env.statusAt (n + 1) 0 ⟨n, Nat.zero_le n, by omega, hn⟩
      cases hw : wait_loop env.statusAt (n + 1) 0 with
      | none => rw [hw] at hs; cases hs
      | some evs =>
        refine ⟨n + 1, (evs ++ [AgentEvent.create], env.new_run), ?_⟩
        rw [run_agent, hie]
        simp only [Bool.false_eq_true, if_false, hw, Option.map_some']
    · intro ⟨fuel, r, hr⟩
      rw [run_agent, hie] at hr
      simp only [Bool.false_eq_true, if_false] at hr
      cases hw : wait_loop env.statusAt fuel 0 with
      | none => rw [hw] at hr; cases hr
      | some evs =>
        obtain ⟨steps, _, _, hterm⟩ := wait_loop_some_trace env.statusAt fuel 0 evs hw
        exact ⟨steps, by rwa [Nat.zero_add] at hterm⟩
  · intro fuel evs run hr ms hm
    rw [run_agent, hie] at hr
    simp only [Bool.false_eq_true, if_false] at hr
    cases hw : wait_loop env.statusAt fuel 0 with
    | none => rw [hw] at hr; cases hr
    | some evs2 =>
      rw [hw] at hr
      simp only [Option.map_some'] at hr
      have hevs : evs = evs2 ++ [AgentEvent.create] :=
        (congrArg Prod.fst (Option.some.inj hr)).symm
      obtain ⟨steps, he, _, _⟩ := wait_loop_some_trace env.statusAt fuel 0 evs2 hw
      rw [hevs, he] at hm
      rcases List.mem_append.mp hm with h1 | h1
      · exact sleep_mem_wait_trace env.statusAt steps 0 ms h1
      · rcases List.mem_cons.mp h1 with h2 | h2
        · cases h2
        · cases h2

/-- Witness for C9 on the same concrete environment: the loop terminates
for fuel 3, and the sleep of its trace is 500 ms. -/
theorem claim_C9_witness :
    (∃ fuel r, run_agent run_env_ex fuel = some r) ∧ (500 : Nat) = 500 :=
  ⟨(claim_C9 run_env_ex (by decide)).1.mp ⟨2, by decide⟩,
   (claim_C9 run_env_ex (by decide)).2 3 run_evs_ex
     { id := "r1", status := "completed", last_error := "" } (by decide) 500 (by decide)⟩

/- ===== Helper lemmas for insert_chatbot_message and the handlers ===== -/

theorem insert_loop_skip (env : DbEnv) (thread_id : String) (table_name : Option String)
    (chatbot_type : String) :
    ∀ (l rest : List ThreadMessage),
      (∀ x ∈ l, ¬(x.role = "assistant" ∧ x.text_messages ≠ [])) →
      insert_chatbot_message_loop env thread_id table_name chatbot_type (l ++ rest) =
        insert_chatbot_message_loop env thread_id table_name chatbot_type rest := by
  intro l
  induction l with
  | nil => intro rest _; rfl
  | cons m l ih =>
    intro rest hall
    rw [List.cons_append, insert_chatbot_message_loop]
    rw [if_neg (hall m (List.mem_cons_self m l))]
    exact ih rest (fun x hx => hall x (List.mem_cons_of_mem m hx))

theorem insert_loop_role (env : DbEnv) (thread_id : String) (table_name : Option String)
    (chatbot_type : String) (hct : chatbot_type ≠ "summary") :
    ∀ l : List ThreadMessage,
      ∃ p, (insert_chatbot_message_loop env thread_id table_name chatbot_type l).2 = some p ∧
        p.role = "assistant" := by
  intro l
  induction l with
  | nil => exact ⟨_, rfl, rfl⟩
  | cons m l ih =>
    rw [insert_chatbot_message_loop]
    by_cases hg : m.role = "assistant" ∧ m.text_messages ≠ []
    · rw [if_pos hg]
      cases hj : env.extract_json (env.remove_source (m.text_messages.getLastD "")) with
      | some j =>
        simp only [hj]
        rw [if_neg hct]
        exact ⟨_, rfl, rfl⟩
      | none =>
        simp only [hj]
        exact ⟨_, rfl, rfl⟩
    · rw [if_neg hg]
      exact ih

theorem count_run_call_map_insert (a b : String) (l : List InsertEvent) :
    (l.map (fun e => Effect.db_insert e.1 e.2)).count (Effect.run_agent_call a b) = 0 := by
  rw [List.count_eq_zero]
  intro hmem
  rw [List.mem_map] at hmem
  obtain ⟨e, _, he⟩ := hmem
  exact Effect.noConfusion he

theorem string_foldl_append (l : List String) :
    ∀ a b : String, l.foldl (· ++ ·) (a ++ b) = a ++ l.foldl (· ++ ·) b := by
  induction l with
  | nil => intro a b; rfl
  | cons c l ih =>
    intro a b
    rw [List.foldl, List.foldl, String.append_assoc]
    exact ih a (b ++ c)

theorem string_join_cons (a : String) (l : List String) :
    String.join (a :: l) = a ++ String.join l := by
  rw [String.join, String.join, List.foldl]
  have h : ("" : String) ++ a = a ++ "" := by
    rw [String.empty_append, String.append_empty]
  rw [h, string_foldl_append]

theorem transcript_ne_empty (p : String × String) (rest : List (String × String)) :
    String.join ((p :: rest).map (fun m => m.1 ++ ": " ++ m.2 ++ "\n")) ≠ "" := by
  rw [List.map_cons, string_join_cons]
  intro h
  have hlen := congrArg String.length h
  rw [String.length_append, String.length_append, String.length_append,
    String.length_append] at hlen
  have h1 : (": " : String).length = 2 := rfl
  have h2 : ("\n" : String).length = 1 := rfl
  rw [h1, h2, String.length_empty] at hlen
  omega

/- ===== Claim theorems for the handlers ===== -/

/-- Counterexample to C4 as stated: on a POST /start request whose body
message is null, the handler does run the agent (src/main.py line 167
calls run_agent inside the null branch), while still returning the dict
with the thread id. -/
theorem claim_C4_counterexample :
    Effect.run_agent_call "t1" "agent1" ∈ (give_thread_id start_env_ex none).1 ∧
    (give_thread_id start_env_ex none).2 = HResponse.thread_id_resp "t1" := by
  decide

/-- C4 amended: for every POST /start request the handler creates a
thread, seeds the date-context system message, and runs the agent exactly
once whether or not a message was supplied; when the body message is null
it returns the dict with the thread id (ignoring the run outcome), and
when a message is supplied it returns the assistant reply payload when
the run did not fail and the run-failure payload when it did. -/
theorem claim_C4_amended (env : StartEnv) (user_input : Option String) :
    (give_thread_id env user_input).1.count
        (Effect.run_agent_call env.new_thread_id env.db.agent_data_id) = 1 ∧
    Effect.create_thread env.new_thread_id ∈ (give_thread_id env user_input).1 ∧
    Effect.make_message env.new_thread_id "user" (date_context_message env.today) ∈
      (give_thread_id env user_input).1 ∧
    (user_input = none →
      (give_thread_id env user_input).2 = HResponse.thread_id_resp env.new_thread_id) ∧
    (∀ s, user_input = some s → env.run_result.status ≠ "failed" →
      ∃ p, (give_thread_id env user_input).2 = HResponse.payload_resp p ∧
        p.role = "assistant") ∧
    (∀ s, user_input = some s → env.run_result.status = "failed" →
      (give_thread_id env user_input).2 =
        HResponse.message_payload "assistant" ("Run failed: " ++ env.run_result.last_error)) := by
  cases user_input with
  | none =>
    refine ⟨?_, ?_, ?_, ?_, ?_, ?_⟩
    · simp [give_thread_id, List.count_cons, List.count_append]
    · simp [give_thread_id]
    · simp [give_thread_id]
    · intro _
      rfl
    · intro s hs
      cases hs
    · intro s hs
      cases hs
  | some input =>
    by_cases hf : env.run_result.status = "failed"
    · refine ⟨?_, ?_, ?_, ?_, ?_, ?_⟩
      · simp [give_thread_id, hf, List.count_cons, List.count_append]
      · simp [give_thread_id, hf]
      · simp [give_thread_id, hf]
      · intro h
        cases h
      · intro s hs hns
        exact absurd hf hns
      · intro s hs _
        cases hs
        simp [give_thread_id, hf]
    · obtain ⟨p, hp, hrole⟩ :=
        insert_loop_role env.db env.new_thread_id (some "chatbot_data") "data"
          (by decide) env.thread_messages.reverse
      refine ⟨?_, ?_, ?_, ?_, ?_, ?_⟩
      · simp only [give_thread_id, hf, if_false, List.count_append, List.count_cons,
          List.count_nil]
        rw [count_run_call_map_insert]
        simp
      · simp [give_thread_id, hf]
      · simp [give_thread_id, hf]
      · intro h
        cases h
      · intro s hs _
        cases hs
        refine ⟨p, ?_, hrole⟩
        simp only [give_thread_id, hf, if_false, insert_chatbot_message]
        rw [hp]
      · intro s hs hyes
        exact absurd hyes hf

/-- Witness for the amended C4 on concrete environments: the null case
returns the thread id, the supplied-message case returns an assistant
payload. -/
theorem claim_C4_amended_witness :
    (give_thread_id start_env_ex none).2 = HResponse.thread_id_resp start_env_ex.new_thread_id ∧
    ∃ p, (give_thread_id start_env_ex (some "hoi")).2 = HResponse.payload_resp p ∧
      p.role = "assistant" :=
  ⟨(claim_C4_amended start_env_ex none).2.2.2.1 rfl,
   (claim_C4_amended start_env_ex (some "hoi")).2.2.2.2.1 "hoi" rfl (by decide)⟩

/-- C5: a POST /start request with a null body message performs no
database insert at all (in particular no chat-history row in the
chatbot_data table), yet still creates a thread and returns its id. -/
theorem claim_C5 (env : StartEnv) :
    (∀ e ∈ (give_thread_id env none).1, ∀ t v, e ≠ Effect.db_insert t v) ∧
    Effect.create_thread env.new_thread_id ∈ (give_thread_id env none).1 ∧
    (give_thread_id env none).2 = HResponse.thread_id_resp env.new_thread_id := by
  refine ⟨?_, by simp [give_thread_id], rfl⟩
  intro e he t v
  simp only [give_thread_id, List.cons_append, List.nil_append, List.mem_cons,
    List.not_mem_nil, or_false] at he
  rcases he with rfl | rfl | rfl <;> intro h <;> cases h

/-- Witness for C5 on a concrete environment. -/
theorem claim_C5_witness :
    Effect.create_thread "t1" ≠ Effect.db_insert (some "chatbot_data") (InsertVal.json "j") ∧
    (give_thread_id start_env_ex none).2 = HResponse.thread_id_resp start_env_ex.new_thread_id :=
  ⟨(claim_C5 start_env_ex).1 (Effect.create_thread "t1") (by decide)
      (some "chatbot_data") (InsertVal.json "j"),
   (claim_C5 start_env_ex).2.2⟩

/-- C6: ending a conversation removes the thread id from the
ongoing-threads map even when it was never present (no entry with that id
remains, and every entry with a different id is kept), the response
effects are exactly those of make_summary on that thread, and
summarization of an empty persisted history is a no-op that performs no
effect and stores nothing, while a non-empty history does reach the
summary agent. -/
theorem claim_C6 (env : SummaryEnv) (ongoing : OngoingThreads) (thread_id : String) :
    thread_id ∉ (end_conversation env ongoing thread_id).1.map Prod.fst ∧
    (∀ p ∈ ongoing, p.1 ≠ thread_id → p ∈ (end_conversation env ongoing thread_id).1) ∧
    (end_conversation env ongoing thread_id).2 = make_summary env thread_id ∧
    (env.chatbot_rows thread_id = [] → make_summary env thread_id = []) ∧
    (env.chatbot_rows thread_id ≠ [] →
      Effect.run_agent_call env.summary_thread_id env.agent_summary_id ∈
        make_summary env thread_id) := by
  refine ⟨?_, ?_, rfl, ?_, ?_⟩
  · intro hx
    rw [List.mem_map] at hx
    obtain ⟨p, hp, hfst⟩ := hx
    simp only [end_conversation] at hp
    rw [List.mem_filter] at hp
    have h2 := hp.2
    simp only [Bool.not_eq_eq_eq_not, Bool.not_true, decide_eq_false_iff_not] at h2
    exact h2 hfst
  · intro p hp hne
    simp only [end_conversation]
    rw [List.mem_filter]
    refine ⟨hp, ?_⟩
    simp only [Bool.not_eq_eq_eq_not, Bool.not_true, decide_eq_false_iff_not]
    exact hne
  · intro hrows
    have hj : String.join ([] : List String) = "" := rfl
    simp [make_summary, hrows, hj]
  · intro hrows
    cases hlr : env.chatbot_rows thread_id with
    | nil => exact absurd hlr hrows
    | cons p rest =>
      simp only [make_summary, hlr]
      rw [if_pos (transcript_ne_empty p rest)]
      exact List.mem_cons_of_mem _ (List.mem_cons_self _ _)

/-- Witness for C6 on concrete inputs: summarizing thread a with no
persisted rows does nothing, summarizing thread t9 with one row reaches
the summary agent, and ending thread a removes it from the map. -/
theorem claim_C6_witness :
    make_summary summary_env_ex "a" = [] ∧
    Effect.run_agent_call summary_env_ex.summary_thread_id summary_env_ex.agent_summary_id ∈
      make_summary summary_env_ex "t9" ∧
    "a" ∉ (end_conversation summary_env_ex [("a", (5 : Int))] "a").1.map Prod.fst :=
  ⟨(claim_C6 summary_env_ex [] "a").2.2.2.1 (by decide),
   (claim_C6 summary_env_ex [] "t9").2.2.2.2 (by decide),
   (claim_C6 summary_env_ex [("a", (5 : Int))] "a").1⟩

/-- Counterexample to C7 as stated: a POST /start request whose body
message is null and whose agent run completes with status failed returns
the dict with the thread id, not a message payload carrying the last
error of the run. -/
theorem claim_C7_counterexample :
    start_env_failed.run_result.status = "failed" ∧
    (give_thread_id start_env_failed none).2 = HResponse.thread_id_resp "t1" := by
  decide

/-- C7 amended: for every POST /chat request, and every POST /start
request whose body message is non-null, in which the agent run completes
with status failed, the handler returns the two-key message payload with
role assistant carrying the last error of the run rather than an HTTP
error code, and the only database insert of the request is the user row,
so no assistant turn is persisted; a POST /start request with a null body
message returns the thread id dict regardless of the run status. -/
theorem claim_C7_amended (envS : StartEnv) (s : String) (envC : ChatEnv)
    (input thread_id : String) :
    (envS.run_result.status = "failed" →
      (give_thread_id envS (some s)).2 =
        HResponse.message_payload "assistant" ("Run failed: " ++ envS.run_result.last_error) ∧
      ∀ e ∈ (give_thread_id envS (some s)).1, ∀ t v, e = Effect.db_insert t v →
        v = InsertVal.row "user" envS.new_thread_id (JVal.str s) envS.db.agent_data_id) ∧
    (envC.run_result.status = "failed" →
      (chat envC input thread_id).2 =
        HResponse.message_payload "assistant" ("Run failed: " ++ envC.run_result.last_error) ∧
      ∀ e ∈ (chat envC input thread_id).1, ∀ t v, e = Effect.db_insert t v →
        v = InsertVal.row "user" thread_id (JVal.str input) envC.db.agent_data_id) := by
  constructor
  · intro hf
    constructor
    · simp [give_thread_id, hf]
    · intro e he t v heq
      simp [give_thread_id, hf] at he
      rcases he with rfl | rfl | rfl | rfl | rfl | rfl
      · cases heq
      · cases heq
      · injection heq with h1 h2
        exact h2.symm
      · cases heq
      · cases heq
      · cases heq
  · intro hf
    constructor
    · simp [chat, hf]
    · intro e he t v heq
      simp [chat, hf] at he
      rcases he with rfl | rfl | rfl | rfl
      · cases heq
      · cases heq
      · injection heq with h1 h2
        exact h2.symm
      · cases heq

/-- Witness for the amended C7 on concrete failed-run environments. -/
theorem claim_C7_amended_witness :
    (give_thread_id start_env_failed (some "hoi")).2 =
      HResponse.message_payload "assistant"
        ("Run failed: " ++ start_env_failed.run_result.last_error) ∧
    (chat chat_env_failed "hoi" "t9").2 =
      HResponse.message_payload "assistant"
        ("Run failed: " ++ chat_env_failed.run_result.last_error) :=
  ⟨((claim_C7_amended start_env_failed "hoi" chat_env_failed "hoi" "t9").1 rfl).1,
   ((claim_C7_amended start_env_failed "hoi" chat_env_failed "hoi" "t9").2 rfl).1⟩

/-- C8: when the latest assistant message with text content does not
parse as JSON (extract_json raises ValueError), insert_chatbot_message
inserts the stripped text as a plain assistant row into the given table
and returns the payload carrying that text. -/
theorem claim_C8 (env : DbEnv) (pre post : List ThreadMessage) (m : ThreadMessage)
    (thread_id : String) (table_name : Option String) (chatbot_type : String)
    (hrole : m.role = "assistant") (htm : m.text_messages ≠ [])
    (hpost : ∀ x ∈ post, ¬(x.role = "assistant" ∧ x.text_messages ≠ []))
    (hjson : env.extract_json (env.remove_source (m.text_messages.getLastD "")) = none) :
    insert_chatbot_message env (pre ++ m :: post) thread_id table_name chatbot_type none =
      ([(table_name, InsertVal.row "assistant" thread_id
          (JVal.str (env.remove_source (m.text_messages.getLastD ""))) env.agent_data_id)],
       some { role := "assistant",
              message := JVal.str (env.remove_source (m.text_messages.getLastD "")),
              thread_id := thread_id, agent_id := env.agent_data_id }) := by
  have hrev : (pre ++ m :: post).reverse = post.reverse ++ m :: pre.reverse := by
    rw [List.reverse_append, List.reverse_cons, List.append_assoc, List.singleton_append]
  simp only [insert_chatbot_message]
  rw [hrev, insert_loop_skip env thread_id table_name chatbot_type post.reverse _
    (fun x hx => hpost x (List.mem_reverse.mp hx))]
  rw [insert_chatbot_message_loop, if_pos ⟨hrole, htm⟩]
  simp only [hjson]

/-- Witness for C8 on a concrete thread with one assistant message whose
text is not JSON. -/
theorem claim_C8_witness :
    insert_chatbot_message db_env_ex
        [{ role := "assistant", text_messages := ["hallo"] }]
        "t1" (some "chatbot_data") "data" none =
      ([(some "chatbot_data", InsertVal.row "assistant" "t1" (JVal.str "hallo") "agent1")],
       some { role := "assistant", message := JVal.str "hallo",
              thread_id := "t1", agent_id := "agent1" }) :=
  claim_C8 db_env_ex [] [] { role := "assistant", text_messages := ["hallo"] }
    "t1" (some "chatbot_data") "data" rfl (by decide) (by decide) rfl

/-- C10: when the thread holds no assistant message with a non-empty list
of text messages, insert_chatbot_message inserts nothing and returns the
No-response payload, and a POST /start request with a supplied message
whose run did not fail hands exactly that payload to the HTTP caller. -/
theorem claim_C10 (env : DbEnv) (messages : List ThreadMessage) (thread_id : String)
    (table_name : Option String) (chatbot_type : String) (envS : StartEnv) (s : String)
    (hmsg : ∀ x ∈ messages, ¬(x.role = "assistant" ∧ x.text_messages ≠ []))
    (henv : envS.thread_messages = messages) (hdb : envS.db = env)
    (hstatus : envS.run_result.status ≠ "failed") :
    insert_chatbot_message env messages thread_id table_name chatbot_type none =
      ([], some { role := "assistant", message := JVal.str "No response",
                  thread_id := thread_id, agent_id := env.agent_data_id }) ∧
    (give_thread_id envS (some s)).2 =
      HResponse.payload_resp { role := "assistant", message := JVal.str "No response",
                               thread_id := envS.new_thread_id,
                               agent_id := env.agent_data_id } := by
  have hbase : ∀ tid tbl ct, insert_chatbot_message env messages tid tbl ct none =
      ([], some { role := "assistant", message := JVal.str "No response",
                  thread_id := tid, agent_id := env.agent_data_id }) := by
    intro tid tbl ct
    simp only [insert_chatbot_message]
    have hskip := insert_loop_skip env tid tbl ct messages.reverse []
      (fun x hx => hmsg x (List.mem_reverse.mp hx))
    rw [List.append_nil] at hskip
    rw [hskip]
    rfl
  refine ⟨hbase thread_id table_name chatbot_type, ?_⟩
  simp only [give_thread_id, if_neg hstatus]
  rw [henv, hdb, hbase envS.new_thread_id (some "chatbot_data") "data"]

/-- Witness for C10: a thread with no messages at all yields the
No-response payload, which the /start handler returns. -/
theorem claim_C10_witness :
    insert_chatbot_message db_env_ex [] "t1" (some "chatbot_data") "data" none =
      ([], some { role := "assistant", message := JVal.str "No response",
                  thread_id := "t1", agent_id := "agent1" }) ∧
    (give_thread_id start_env_ex (some "hoi")).2 =
      HResponse.payload_resp { role := "assistant", message := JVal.str "No response",
                               thread_id := "t1", agent_id := "agent1" } :=
  claim_C10 db_env_ex [] "t1" (some "chatbot_data") "data" start_env_ex "hoi"
    (by decide) rfl rfl (by decide)
